import Mathlib

/-!
# Verification of the blend-contracts reserve accounting & auction engine

A shallow embedding of the parts of `brson/blend-contracts` relevant to the
auction decay curve (`src/lending-pool/src/auctions/auction.rs`), the auction
state machine, the position-valuation routine
(`src/lending-pool/src/user_data.rs`) and the emissions manager
(`src/lending-pool/src/emissions_manager.rs`).

Machine integers (`i128`, `u32`, `u64`) are embedded as `Int`/`Nat` with the
overflow checks of the `fixed_point_math` crate made explicit through `Option`.
Fallible contract calls (`panic_with_error!`, `Result<_, PoolError>`) are
embedded as `Except PoolError`.
-/

set_option maxRecDepth 2000

namespace Blend

/-- Errors of the lending pool (`PoolError` in `errors.rs`), together with
`InternalPanic` standing for a host trap (`panic!` / `unwrap` on a missing
storage entry). -/
inductive PoolError where
  | BadRequest
  | InvalidHf
  | InternalPanic
deriving DecidableEq, Repr

/-- `i128::MAX`. -/
def i128Max : Int := 2 ^ 127 - 1

/-- `i128::MIN`. -/
def i128Min : Int := -(2 ^ 127)

/-- `i128::checked_mul`: the product, or `none` when it leaves the `i128`
range. -/
def checked_mul (x y : Int) : Option Int :=
  if i128Min ≤ x * y ∧ x * y ≤ i128Max then some (x * y) else none

/-- `FixedPoint::fixed_mul_floor` from the `fixed_point_math` crate:
`⌊x·y/denominator⌋` with the multiplication checked for `i128` overflow. -/
def fixed_mul_floor (x y denominator : Int) : Option Int :=
  match checked_mul x y with
  | none => none
  | some p => some (Int.fdiv p denominator)

/-- `SCALAR_7`: 7-decimal fixed-point scale. -/
def SCALAR_7 : Int := 10000000

/-- `get_fill_modifiers` (auction.rs): given the current ledger sequence and
the auction's creation block, returns `(bid_modifier, lot_modifier)` scaled to
7 decimals.  The `u32` subtraction `sequence - block` traps on underflow
(`none`); the two `unwrap_optimized` calls on `fixed_mul_floor` likewise
propagate as `none`. -/
def get_fill_modifiers (sequence block : Nat) : Option (Int × Int) :=
  if sequence < block then none
  else
    let block_dif : Int := ((sequence - block : Nat) : Int) * 10000000
    let per_block_scalar : Int := 50000
    if block_dif > 4000000000 then
      some (0, 10000000)
    else if block_dif > 2000000000 then
      match fixed_mul_floor block_dif per_block_scalar 10000000 with
      | none => none
      | some m => some (20000000 - m, 10000000)
    else
      match fixed_mul_floor block_dif per_block_scalar 10000000 with
      | none => none
      | some m => some (10000000, m)

/-! ## Auction state machine (auction.rs) -/

/-- Addresses are abstracted as naturals. -/
abbrev Address := Nat

/-- `AuctionData` (auction.rs): bid/lot maps (reserve index → amount) and the
creation block. -/
structure AuctionData where
  bid : List (Nat × Int)
  lot : List (Nat × Int)
  block : Nat
deriving DecidableEq, Repr

/-- `AuctionQuote` (auction.rs). -/
structure AuctionQuote where
  bid : List (Address × Int)
  lot : List (Address × Int)
  block : Nat
deriving DecidableEq, Repr

/-- `LiquidationMetadata` (auction.rs). -/
structure LiquidationMetadata where
  collateral : List (Address × Int)
  liability : List (Address × Int)
deriving DecidableEq, Repr

/-- The pool's persistent storage, restricted to what the auction engine
touches: the backstop address and the auction records keyed by
`(auction_type, subject address)`. -/
structure PoolStorage where
  backstop : Address
  auctions : Nat → Address → Option AuctionData

/-- `storage::has_auction`. -/
def has_auction (s : PoolStorage) (auction_type : Nat) (user : Address) : Bool :=
  (s.auctions auction_type user).isSome

/-- `storage::set_auction`. -/
def set_auction (s : PoolStorage) (auction_type : Nat) (user : Address)
    (d : AuctionData) : PoolStorage :=
  { s with auctions := fun t u =>
      if t = auction_type ∧ u = user then some d else s.auctions t u }

/-- `storage::del_auction`. -/
def del_auction (s : PoolStorage) (auction_type : Nat) (user : Address) : PoolStorage :=
  { s with auctions := fun t u =>
      if t = auction_type ∧ u = user then none else s.auctions t u }

/-- Modelled from the spec: `storage::get_auction` (the storage module is not
under src/); per §7 of the spec, "auction not found for fill/delete/preview"
surfaces as `BadRequest`. -/
def get_auction (s : PoolStorage) (auction_type : Nat) (user : Address) :
    Except PoolError AuctionData :=
  match s.auctions auction_type user with
  | some d => .ok d
  | none => .error .BadRequest

/-- `PositionData` (pool.rs, used by auction.rs): a user's recomputed
collateral and liability totals in the base asset. -/
structure PositionData where
  collateral_base : Int
  liability_base : Int
deriving DecidableEq, Repr

/-- Modelled from the spec: `PositionData::require_healthy` (pool.rs is not
under src/); per §4.3 and §8 of the spec, deletion of a liquidation is allowed
"only if collateral_base now exceeds liability_base", otherwise it errors with
`InvalidHf`. -/
def PositionData.require_healthy (pd : PositionData) : Except PoolError Unit :=
  if pd.liability_base < pd.collateral_base then .ok () else .error .InvalidHf

/-- `delete_liquidation` (auction.rs): errors `BadRequest` when no
`UserLiquidation` auction record exists for the user; otherwise recomputes the
user's position (`calcPos`, standing for
`PositionData::calculate_from_positions`) and deletes the record only when the
user is healthy again. -/
def delete_liquidation (calcPos : Address → PositionData) (s : PoolStorage)
    (user : Address) : Except PoolError PoolStorage :=
  if ¬ has_auction s 0 user then .error .BadRequest
  else
    match (calcPos user).require_healthy with
    | .error e => .error e
    | .ok _ => .ok (del_auction s 0 user)

/-- Modelled from the spec: `create_bad_debt_auction_data`
(auctions/bad_debt_auction.rs is not under src/); per §3 of the spec an
auction for a given (type, subject) key is unique — "creation fails if one
already exists for that key".  The computed bid/lot contents are abstracted
as the parameter `build`. -/
def create_bad_debt_auction_data (build : PoolStorage → AuctionData)
    (s : PoolStorage) (backstop : Address) : Except PoolError AuctionData :=
  if has_auction s 1 backstop then .error .BadRequest
  else .ok (build s)

/-- Modelled from the spec: `create_interest_auction_data`
(auctions/backstop_interest_auction.rs is not under src/); duplicate-key
creation fails, the computed contents are abstracted as `build`. -/
def create_interest_auction_data (build : PoolStorage → AuctionData)
    (s : PoolStorage) (backstop : Address) : Except PoolError AuctionData :=
  if has_auction s 2 backstop then .error .BadRequest
  else .ok (build s)

/-- Modelled from the spec: `create_user_liq_auction_data`
(auctions/user_liquidation_auction.rs is not under src/); per §4.3 of the
spec, creation fails when an auction already exists for the user, and the
engine "verifies the named user is currently unhealthy
(liability_base > collateral_base)".  The bid/lot composition is abstracted
as `build`. -/
def create_user_liq_auction_data (calcPos : Address → PositionData)
    (build : PoolStorage → LiquidationMetadata → AuctionData)
    (s : PoolStorage) (user : Address) (liq_data : LiquidationMetadata) :
    Except PoolError AuctionData :=
  if has_auction s 0 user then .error .BadRequest
  else if (calcPos user).collateral_base < (calcPos user).liability_base then
    .ok (build s liq_data)
  else .error .InvalidHf

/-- `create` (auction.rs): the generic creation entry point.  Auction type 0
(`UserLiquidation`) panics with `BadRequest`; types 1 and 2 build their data
and store it keyed to the backstop; `AuctionType::from_u32` panics on any
other value. -/
def create (buildBD buildInt : PoolStorage → AuctionData) (s : PoolStorage)
    (auction_type : Nat) : Except PoolError (AuctionData × PoolStorage) :=
  let backstop := s.backstop
  match auction_type with
  | 0 => .error .BadRequest
  | 1 =>
    match create_bad_debt_auction_data buildBD s backstop with
    | .error e => .error e
    | .ok d => .ok (d, set_auction s 1 backstop d)
  | 2 =>
    match create_interest_auction_data buildInt s backstop with
    | .error e => .error e
    | .ok d => .ok (d, set_auction s 2 backstop d)
  | _ => .error .InternalPanic

/-- `create_liquidation` (auction.rs): builds the liquidation auction data and
stores it keyed by `(UserLiquidation, user)`. -/
def create_liquidation (calcPos : Address → PositionData)
    (build : PoolStorage → LiquidationMetadata → AuctionData) (s : PoolStorage)
    (user : Address) (liq_data : LiquidationMetadata) :
    Except PoolError (AuctionData × PoolStorage) :=
  match create_user_liq_auction_data calcPos build s user liq_data with
  | .error e => .error e
  | .ok d => .ok (d, set_auction s 0 user d)

/-- `fill` (auction.rs): loads the stored auction (erroring when absent),
dispatches to the per-type fill routine (abstracted as `fUL`, `fBD`, `fInt`,
which may fail and may mutate storage), then unconditionally deletes the
auction record. -/
def fill
    (fUL : PoolStorage → AuctionData → Address → Address →
      Except PoolError (AuctionQuote × PoolStorage))
    (fBD fInt : PoolStorage → AuctionData → Address →
      Except PoolError (AuctionQuote × PoolStorage))
    (s : PoolStorage) (auction_type : Nat) (user filler : Address) :
    Except PoolError (AuctionQuote × PoolStorage) :=
  match get_auction s auction_type user with
  | .error e => .error e
  | .ok auction_data =>
    let r := match auction_type with
      | 0 => fUL s auction_data user filler
      | 1 => fBD s auction_data filler
      | 2 => fInt s auction_data filler
      | _ => .error .InternalPanic
    match r with
    | .error e => .error e
    | .ok (quote, s2) => .ok (quote, del_auction s2 auction_type user)

/-! ## ReserveUsage bitmask

Modelled from the spec: `reserve_usage.rs` is not under src/.  Per §3 of the
spec the mask holds, per reserve index, a liability-active and a
collateral/supply-active bit; the stride of 3 bits per reserve and the bit
positions (liability at `3·i`, collateral/supply at `3·i + 1`) are fixed by
the repository's own test vectors (`0x0A` = collateral on reserve 0 +
liability on reserve 1; `0b010_000_001` = liability on reserve 0 + supply on
reserve 2).  The emission map keys follow the `reserve.index * 2` convention
visible in auction.rs (`fill_debt_token`). -/

def ReserveUsage.is_liability (config i : Nat) : Bool := config.testBit (3 * i)

def ReserveUsage.is_collateral (config i : Nat) : Bool := config.testBit (3 * i + 1)

def ReserveUsage.is_supply (config i : Nat) : Bool := config.testBit (3 * i + 1)

def ReserveUsage.is_active_reserve (config i : Nat) : Bool :=
  ReserveUsage.is_liability config i || ReserveUsage.is_collateral config i

def ReserveUsage.set_liability (config i : Nat) : Nat := config ||| (1 <<< (3 * i))

def ReserveUsage.set_supply (config i : Nat) : Nat := config ||| (1 <<< (3 * i + 1))

def ReserveUsage.liability_key (i : Nat) : Nat := i * 2

def ReserveUsage.supply_key (i : Nat) : Nat := i * 2 + 1

/-! ## Position valuation (user_data.rs) -/

/-- `UserAction` (user_data.rs): a hypothetical delta on one asset. -/
structure UserAction where
  asset : Nat
  b_token_delta : Int
  d_token_delta : Int
deriving DecidableEq, Repr

/-- The environment read by `UserData::load`: the reserve list, the oracle
prices, the user's b-token and d-token balances per asset, and the conversion
routines `Reserve::to_effective_asset_from_b_token` /
`to_effective_asset_from_d_token` (reserve.rs is not under src/; they are kept
abstract, the claims hold for every choice). -/
structure LoadEnv where
  res_list : List Nat
  price : Nat → Int
  bBalance : Nat → Int
  dBalance : Nat → Int
  toEffB : Nat → Int → Int
  toEffD : Nat → Int → Int

/-- The reserve loop of `UserData::load` (user_data.rs) over the enumerated
reserve list, accumulating `(collateral_base, liability_base)`.  A reserve is
skipped when the user's usage bits for it are clear and it is not the
action's asset; otherwise the active balances and the non-zero action deltas
are converted and added with `fixed_mul_floor` (whose `unwrap` propagates as
`none`). -/
def UserData.loadLoop (env : LoadEnv) (cfg : Nat) (action : UserAction) :
    List (Nat × Nat) → Int × Int → Option (Int × Int)
  | [], acc => some acc
  | (i, asset) :: rest, (cb, lb) =>
    if ¬ ReserveUsage.is_active_reserve cfg i ∧ asset ≠ action.asset then
      UserData.loadLoop env cfg action rest (cb, lb)
    else
      match (if ReserveUsage.is_collateral cfg i then
          (fixed_mul_floor (env.toEffB asset (env.bBalance asset))
            (env.price asset) SCALAR_7).map (fun x => cb + x)
        else some cb) with
      | none => none
      | some cb1 =>
        match (if ReserveUsage.is_liability cfg i then
            (fixed_mul_floor (env.toEffD asset (env.dBalance asset))
              (env.price asset) SCALAR_7).map (fun x => lb + x)
          else some lb) with
        | none => none
        | some lb1 =>
          if asset = action.asset then
            match (if action.b_token_delta ≠ 0 then
                (fixed_mul_floor (env.toEffB asset action.b_token_delta)
                  (env.price asset) SCALAR_7).map (fun x => cb1 + x)
              else some cb1) with
            | none => none
            | some cb2 =>
              match (if action.d_token_delta ≠ 0 then
                  (fixed_mul_floor (env.toEffD asset action.d_token_delta)
                    (env.price asset) SCALAR_7).map (fun x => lb1 + x)
                else some lb1) with
              | none => none
              | some lb2 => UserData.loadLoop env cfg action rest (cb2, lb2)
          else UserData.loadLoop env cfg action rest (cb1, lb1)

/-- `UserData::load` (user_data.rs): `cfg` is the user's stored
`ReserveUsage` bitmask. -/
def UserData.load (env : LoadEnv) (cfg : Nat) (action : UserAction) :
    Option (Int × Int) :=
  UserData.loadLoop env cfg action env.res_list.enum (0, 0)

/-! ## Emissions manager (emissions_manager.rs) -/

/-- `ReserveEmissionMetadata` (emissions_manager.rs). -/
structure ReserveEmissionMetadata where
  res_index : Nat
  res_type : Nat
  share : Nat
deriving DecidableEq, Repr

/-- `PoolEmissionConfig` (storage.rs). -/
structure PoolEmissionConfig where
  config : Nat
  last_time : Nat
deriving DecidableEq, Repr

/-- `ReserveEmissionsData` (storage.rs). -/
structure ReserveEmissionsData where
  index : Nat
  last_time : Nat
deriving DecidableEq, Repr

/-- `ReserveEmissionsConfig` (storage.rs). -/
structure ReserveEmissionsConfig where
  expiration : Nat
  eps : Nat
deriving DecidableEq, Repr

/-- The emission-related storage of the pool. -/
structure EmissionsState where
  pool_emission_config : PoolEmissionConfig
  pool_emissions : Nat → Option Nat
  res_emis_data : Nat → Option ReserveEmissionsData
  res_emis_config : Nat → Option ReserveEmissionsConfig
  res_list : List Nat
  timestamp : Nat

/-- `Map::set` on a `u32 → u64` soroban map. -/
def mapSet (m : Nat → Option Nat) (k v : Nat) : Nat → Option Nat :=
  fun q => if q = k then some v else m q

/-- The key a `ReserveEmissionMetadata` element is stored under
(`liability_key` for res_type 0, `supply_key` otherwise). -/
def emissionKey (m : ReserveEmissionMetadata) : Nat :=
  if m.res_type = 0 then ReserveUsage.liability_key m.res_index
  else ReserveUsage.supply_key m.res_index

/-- Whether the pool-emission-config bit matching a metadata element is set. -/
def emissionBitSet (config : Nat) (m : ReserveEmissionMetadata) : Bool :=
  if m.res_type = 0 then ReserveUsage.is_liability config m.res_index
  else ReserveUsage.is_supply config m.res_index

/-- The bit position in the pool emission config matching a metadata
element. -/
def emissionBitIndex (m : ReserveEmissionMetadata) : Nat :=
  if m.res_type = 0 then 3 * m.res_index else 3 * m.res_index + 1

/-- `u64` checked addition: the contracts build with overflow checks, so a
`u64` sum reaching `2^64` traps (spec §7: arithmetic overflow is always
fatal, never recovered). -/
def u64_checked_add (x y : Nat) : Option Nat :=
  if x + y < 2 ^ 64 then some (x + y) else none

/-- `u64` checked multiplication, trapping on overflow like
`u64_checked_add`. -/
def u64_checked_mul (x y : Nat) : Option Nat :=
  if x * y < 2 ^ 64 then some (x * y) else none

/-- The loop body of `set_pool_emissions` (emissions_manager.rs): sets the
matching usage bit, writes the share under the matching key and accumulates
the total share with `total_share += metadata.share`, a trapping `u64`
addition. -/
def poolEmisStep (acc : Nat × (Nat → Option Nat) × Nat)
    (m : ReserveEmissionMetadata) :
    Except PoolError (Nat × (Nat → Option Nat) × Nat) :=
  match u64_checked_add acc.2.2 m.share with
  | none => .error .InternalPanic
  | some total =>
    if m.res_type = 0 then
      .ok (ReserveUsage.set_liability acc.1 m.res_index,
        mapSet acc.2.1 (ReserveUsage.liability_key m.res_index) m.share,
        total)
    else
      .ok (ReserveUsage.set_supply acc.1 m.res_index,
        mapSet acc.2.1 (ReserveUsage.supply_key m.res_index) m.share,
        total)

/-- The overflow-free shape of `poolEmisStep`, used as a proof device:
`poolEmisStep` agrees with it whenever the running total stays below
`2^64`. -/
def poolEmisStepPure (acc : Nat × (Nat → Option Nat) × Nat)
    (m : ReserveEmissionMetadata) : Nat × (Nat → Option Nat) × Nat :=
  if m.res_type = 0 then
    (ReserveUsage.set_liability acc.1 m.res_index,
      mapSet acc.2.1 (ReserveUsage.liability_key m.res_index) m.share,
      acc.2.2 + m.share)
  else
    (ReserveUsage.set_supply acc.1 m.res_index,
      mapSet acc.2.1 (ReserveUsage.supply_key m.res_index) m.share,
      acc.2.2 + m.share)

/-- The metadata loop of `set_pool_emissions`, propagating the overflow
trap. -/
def poolEmisLoop : List ReserveEmissionMetadata →
    (Nat × (Nat → Option Nat) × Nat) →
    Except PoolError (Nat × (Nat → Option Nat) × Nat)
  | [], acc => .ok acc
  | m :: rest, acc =>
    match poolEmisStep acc m with
    | .error e => .error e
    | .ok acc2 => poolEmisLoop rest acc2

/-- `set_pool_emissions` (emissions_manager.rs): rebuilds the pool emission
config and share map from the metadata vector, rejecting totals above 100%
(`1_0000000`); the previous `last_time` is preserved.  The `u64` running
total traps on overflow before the 100% check is reached. -/
def set_pool_emissions (s : EmissionsState)
    (res_emission_metadata : List ReserveEmissionMetadata) :
    Except PoolError EmissionsState :=
  match poolEmisLoop res_emission_metadata (0, fun _ => none, 0) with
  | .error e => .error e
  | .ok r =>
    if r.2.2 > 10000000 then .error .BadRequest
    else .ok { s with
      pool_emission_config := ⟨r.1, s.pool_emission_config.last_time⟩,
      pool_emissions := r.2.1 }

/-- The type of `emissions_distributor::update_emission_data` (not under
src/): given the state, a reserve asset and a reserve token type, it updates
the reserve emission data and may fail. -/
abbrev DistFn := EmissionsState → Nat → Nat → Except PoolError EmissionsState

/-- `update_reserve_emission_data` (emissions_manager.rs): updates existing
reserve emission data through the distributor, or initialises fresh data at
`index = 0, last_time = now`. -/
def update_reserve_emission_data (dist : DistFn) (s : EmissionsState)
    (res_asset_address res_type res_token_id : Nat) :
    Except PoolError EmissionsState :=
  if (s.res_emis_data res_token_id).isSome then
    dist s res_asset_address res_type
  else
    .ok { s with res_emis_data := fun k =>
      if k = res_token_id then some ⟨0, s.timestamp⟩ else s.res_emis_data k }

/-- `update_reserve_emission_config` (emissions_manager.rs):
`(eps_share * pool_eps) / 1_0000000` is a trapping `u64` multiply followed by
a division by a constant. -/
def update_reserve_emission_config (s : EmissionsState)
    (key expiration pool_eps eps_share : Nat) :
    Except PoolError EmissionsState :=
  match u64_checked_mul eps_share pool_eps with
  | none => .error .InternalPanic
  | some p =>
    .ok { s with res_emis_config := fun k =>
      if k = key then some ⟨expiration, p / 10000000⟩
      else s.res_emis_config k }

/-- The reserve loop of `update_emissions` (emissions_manager.rs): `cfg` and
`pe` are the pool emission config bits and share map read once before the
loop; a configured key missing from the share map makes
`get_unchecked(..).unwrap()` trap (`InternalPanic`). -/
def update_emissions_loop (dist : DistFn) (cfg : Nat) (pe : Nat → Option Nat)
    (next_exp pool_eps : Nat) :
    List (Nat × Nat) → EmissionsState → Except PoolError EmissionsState
  | [], s => .ok s
  | (i, asset) :: rest, s =>
    match (if ReserveUsage.is_liability cfg i then
        match update_reserve_emission_data dist s asset 0
            (ReserveUsage.liability_key i) with
        | .error e => .error e
        | .ok s1 =>
          match pe (ReserveUsage.liability_key i) with
          | none => .error .InternalPanic
          | some share => update_reserve_emission_config s1
              (ReserveUsage.liability_key i) next_exp pool_eps share
      else .ok s : Except PoolError EmissionsState) with
    | .error e => .error e
    | .ok s1 =>
      match (if ReserveUsage.is_supply cfg i then
          match update_reserve_emission_data dist s1 asset 1
              (ReserveUsage.supply_key i) with
          | .error e => .error e
          | .ok s2 =>
            match pe (ReserveUsage.supply_key i) with
            | none => .error .InternalPanic
            | some share => update_reserve_emission_config s2
                (ReserveUsage.supply_key i) next_exp pool_eps share
        else .ok s1 : Except PoolError EmissionsState) with
      | .error e => .error e
      | .ok s2 => update_emissions_loop dist cfg pe next_exp pool_eps rest s2

/-- `update_emissions` (emissions_manager.rs): rejects `next_exp` at or below
the stored `last_time`; otherwise runs the reserve loop and stores the
pool emission config back with `last_time = next_exp` (the config bits as
read at entry), returning `next_exp`. -/
def update_emissions (dist : DistFn) (s : EmissionsState)
    (next_exp pool_eps : Nat) : Except PoolError (Nat × EmissionsState) :=
  if next_exp ≤ s.pool_emission_config.last_time then .error .BadRequest
  else
    match update_emissions_loop dist s.pool_emission_config.config
        s.pool_emissions next_exp pool_eps s.res_list.enum s with
    | .error e => .error e
    | .ok s' => .ok (next_exp,
        { s' with pool_emission_config :=
            ⟨s.pool_emission_config.config, next_exp⟩ })

/-! ### Concrete fixtures used by the witness theorems -/

/-- A position with collateral 2 and liability 1 (healthy). -/
def calcHealthy : Address → PositionData := fun _ => ⟨2, 1⟩

/-- A single empty auction record created at block 50. -/
def auctionEx : AuctionData := ⟨[], [], 50⟩

/-- Storage holding one `UserLiquidation` auction for user 7; backstop is 9. -/
def storLiq : PoolStorage :=
  ⟨9, fun t u => if t = 0 ∧ u = 7 then some auctionEx else none⟩

/-- Storage holding one bad-debt auction for the backstop 9. -/
def storBD : PoolStorage :=
  ⟨9, fun t u => if t = 1 ∧ u = 9 then some auctionEx else none⟩

/-- A trivial auction-data builder. -/
def buildEx : PoolStorage → AuctionData := fun _ => auctionEx

/-- A trivial liquidation-auction-data builder. -/
def buildLiqEx : PoolStorage → LiquidationMetadata → AuctionData :=
  fun _ _ => auctionEx

/-- A trivial user-liquidation fill routine: empty quote, storage unchanged. -/
def fULEx : PoolStorage → AuctionData → Address → Address →
    Except PoolError (AuctionQuote × PoolStorage) :=
  fun s ad _ _ => .ok (⟨[], [], ad.block⟩, s)

/-- A trivial backstop-auction fill routine: empty quote, storage unchanged. -/
def fBDEx : PoolStorage → AuctionData → Address →
    Except PoolError (AuctionQuote × PoolStorage) :=
  fun s ad _ => .ok (⟨[], [], ad.block⟩, s)

/-- A one-reserve valuation environment: asset 77, price 1×SCALE, a non-zero
b-token balance of 5, identity share→asset conversions. -/
def envEx : LoadEnv :=
  ⟨[77], fun _ => 10000000, fun _ => 5, fun _ => 0, fun _ x => x, fun _ x => x⟩

/-- A no-op user action on asset 99 (not a reserve of `envEx`). -/
def actEx : UserAction := ⟨99, 0, 0⟩

/-- Metadata splitting emissions between supply of reserve 0 (35%) and
liability of reserve 3 (65%), as in the repository's own test. -/
def mdEx : List ReserveEmissionMetadata := [⟨0, 1, 3500000⟩, ⟨3, 0, 6500000⟩]

/-- An emissions state with an empty reserve list and `last_time = 1000`. -/
def emisStateEx : EmissionsState :=
  ⟨⟨0, 1000⟩, fun _ => none, fun _ => none, fun _ => none, [], 1500000000⟩

/-- A distributor update that leaves the state unchanged. -/
def distOk : DistFn := fun st _ _ => .ok st

/-- Metadata whose shares sum to `1_0000001` (just over 100%). -/
def mdOver : List ReserveEmissionMetadata := [⟨0, 1, 3500000⟩, ⟨3, 0, 6500001⟩]

/-- Two representable `u64` shares of `2^63` each, whose running total
overflows `u64`. -/
def mdOvf : List ReserveEmissionMetadata := [⟨0, 0, 2 ^ 63⟩, ⟨1, 0, 2 ^ 63⟩]

/-- An emissions state with one reserve (asset 5) whose liability emission is
configured with a 100% share, fresh emission data and `last_time = 0`. -/
def emisStateOvf : EmissionsState :=
  ⟨⟨1, 0⟩, fun k => if k = 0 then some 10000000 else none,
    fun _ => none, fun _ => none, [5], 777⟩

/-! ## Theorems -/

theorem fixed_mul_floor_small (d : Nat) (hd : d < 2 ^ 32) :
    fixed_mul_floor ((d : Int) * 10000000) 50000 10000000 = some ((d : Int) * 50000) := by
  have hprod : ((d : Int) * 10000000) * 50000 = ((d : Int) * 50000) * 10000000 := by ring
  have hle : (d : Int) ≤ 2 ^ 32 := by exact_mod_cast le_of_lt hd
  have h0 : (0 : Int) ≤ (d : Int) := Int.natCast_nonneg d
  have hub : ((d : Int) * 10000000) * 50000 ≤ i128Max := by
    have h1 : ((d : Int) * 10000000) * 50000 ≤ (2 ^ 32) * 10000000 * 50000 := by nlinarith
    have hbound : ((2 : Int) ^ 32) * 10000000 * 50000 ≤ i128Max := by norm_num [i128Max]
    linarith
  have hlb : i128Min ≤ ((d : Int) * 10000000) * 50000 := by
    have h2 : (0 : Int) ≤ ((d : Int) * 10000000) * 50000 :=
      mul_nonneg (mul_nonneg h0 (by norm_num)) (by norm_num)
    have hmin : i128Min ≤ (0 : Int) := by norm_num [i128Min]
    linarith
  simp only [fixed_mul_floor, checked_mul, if_pos (And.intro hlb hub)]
  rw [hprod, Int.mul_fdiv_cancel _ (by norm_num)]

/-- C1: for every auction block and ledger sequence with elapsed block count
`Δ = sequence - block ≥ 400` (the boundary `Δ = 400` included),
`get_fill_modifiers` returns `bid_modifier = 0` and
`lot_modifier = 1_0000000` exactly. -/
theorem get_fill_modifiers_after_400 (sequence block : Nat)
    (hseq : sequence < 2 ^ 32) (hle : block ≤ sequence)
    (hd : 400 ≤ sequence - block) :
    get_fill_modifiers sequence block = some (0, 10000000) := by
  have hnlt : ¬ sequence < block := not_lt.mpr hle
  have hd32 : sequence - block < 2 ^ 32 := lt_of_le_of_lt (Nat.sub_le _ _) hseq
  have hcast : (400 : Int) ≤ ((sequence - block : Nat) : Int) := by exact_mod_cast hd
  simp only [get_fill_modifiers, if_neg hnlt]
  rcases lt_or_eq_of_le hcast with h | h
  · have hgt : ((sequence - block : Nat) : Int) * 10000000 > 4000000000 := by nlinarith
    rw [if_pos hgt]
  · have h1 : ¬ (((sequence - block : Nat) : Int) * 10000000 > 4000000000) := by
      rw [← h]; norm_num
    have h2 : ((sequence - block : Nat) : Int) * 10000000 > 2000000000 := by
      rw [← h]; norm_num
    rw [if_neg h1, if_pos h2, fixed_mul_floor_small _ hd32]
    rw [← h]; norm_num

theorem get_fill_modifiers_after_400_witness :
    100 ≤ 500 ∧ (500 : Nat) < 2 ^ 32 ∧ 400 ≤ 500 - 100 ∧
      get_fill_modifiers 500 100 = some (0, 10000000) :=
  ⟨by decide, by decide, by decide,
    get_fill_modifiers_after_400 500 100 (by decide) (by decide) (by decide)⟩

/-- C2: for every auction block and ledger sequence with elapsed block count
`Δ = sequence - block ≤ 200`, `get_fill_modifiers` returns
`bid_modifier = 1_0000000` and `lot_modifier = Δ * 0_0050000` — the
floor-rounded fixed-point product `(Δ·SCALE)·0.005`, rising linearly from 0
at `Δ = 0` to `1_0000000` at `Δ = 200`. -/
theorem get_fill_modifiers_first_200 (sequence block : Nat)
    (hseq : sequence < 2 ^ 32) (hle : block ≤ sequence)
    (hd : sequence - block ≤ 200) :
    get_fill_modifiers sequence block =
      some (10000000, ((sequence - block : Nat) : Int) * 50000) := by
  have hnlt : ¬ sequence < block := not_lt.mpr hle
  have hd32 : sequence - block < 2 ^ 32 := lt_of_le_of_lt (Nat.sub_le _ _) hseq
  have hcast : ((sequence - block : Nat) : Int) ≤ 200 := by exact_mod_cast hd
  have h0 : (0 : Int) ≤ ((sequence - block : Nat) : Int) := Int.natCast_nonneg _
  have h1 : ¬ (((sequence - block : Nat) : Int) * 10000000 > 4000000000) := by nlinarith
  have h2 : ¬ (((sequence - block : Nat) : Int) * 10000000 > 2000000000) := by nlinarith
  simp only [get_fill_modifiers, if_neg hnlt, if_neg h1, if_neg h2,
    fixed_mul_floor_small _ hd32]

theorem get_fill_modifiers_first_200_witness :
    (1100 : Nat) < 2 ^ 32 ∧ 1000 ≤ 1100 ∧ 1100 - 1000 ≤ 200 ∧
      get_fill_modifiers 1100 1000 =
        some (10000000, ((1100 - 1000 : Nat) : Int) * 50000) :=
  ⟨by decide, by decide, by decide,
    get_fill_modifiers_first_200 1100 1000 (by decide) (by decide) (by decide)⟩

/-- C3: `delete_liquidation(user)` succeeds — removing the `UserLiquidation`
auction record — if and only if such a record exists and the recomputed
`collateral_base` strictly exceeds `liability_base`; it errors `BadRequest`
when no record exists, and errors `InvalidHf` (the record untouched) when the
record exists but the user is still unhealthy. -/
theorem delete_liquidation_spec (calcPos : Address → PositionData)
    (s : PoolStorage) (user : Address) :
    (has_auction s 0 user = false →
      delete_liquidation calcPos s user = .error .BadRequest) ∧
    (has_auction s 0 user = true →
      (calcPos user).liability_base < (calcPos user).collateral_base →
      delete_liquidation calcPos s user = .ok (del_auction s 0 user) ∧
        has_auction (del_auction s 0 user) 0 user = false) ∧
    (has_auction s 0 user = true →
      ¬ (calcPos user).liability_base < (calcPos user).collateral_base →
      delete_liquidation calcPos s user = .error .InvalidHf) := by
  refine ⟨fun h => ?_, fun h hh => ⟨?_, ?_⟩, fun h hh => ?_⟩
  · simp [delete_liquidation, h]
  · simp [delete_liquidation, h, PositionData.require_healthy, hh]
  · simp [has_auction, del_auction]
  · simp [delete_liquidation, h, PositionData.require_healthy, hh]

theorem delete_liquidation_spec_witness :
    has_auction storLiq 0 7 = true ∧
      (calcHealthy 7).liability_base < (calcHealthy 7).collateral_base ∧
      delete_liquidation calcHealthy storLiq 7 = .ok (del_auction storLiq 0 7) ∧
      has_auction (del_auction storLiq 0 7) 0 7 = false :=
  ⟨by decide, by decide,
    ((delete_liquidation_spec calcHealthy storLiq 7).2.1 (by decide) (by decide)).1,
    ((delete_liquidation_spec calcHealthy storLiq 7).2.1 (by decide) (by decide)).2⟩

/-- C4: creating an auction fails with `BadRequest` when an auction record
already exists for the same (type, subject) key — for the generic `create`
entry point (bad-debt and interest auctions, keyed to the backstop) as well
as for `create_liquidation`. -/
theorem create_duplicate_rejected (buildBD buildInt : PoolStorage → AuctionData)
    (calcPos : Address → PositionData)
    (buildLiq : PoolStorage → LiquidationMetadata → AuctionData)
    (s : PoolStorage) (user : Address) (liq_data : LiquidationMetadata) :
    (has_auction s 1 s.backstop = true →
      create buildBD buildInt s 1 = .error .BadRequest) ∧
    (has_auction s 2 s.backstop = true →
      create buildBD buildInt s 2 = .error .BadRequest) ∧
    (has_auction s 0 user = true →
      create_liquidation calcPos buildLiq s user liq_data = .error .BadRequest) := by
  refine ⟨fun h => ?_, fun h => ?_, fun h => ?_⟩
  · simp [create, create_bad_debt_auction_data, h]
  · simp [create, create_interest_auction_data, h]
  · simp [create_liquidation, create_user_liq_auction_data, h]

theorem create_duplicate_rejected_witness :
    (has_auction storBD 1 storBD.backstop = true ∧
      create buildEx buildEx storBD 1 = .error .BadRequest) ∧
    (has_auction storLiq 0 7 = true ∧
      create_liquidation calcHealthy buildLiqEx storLiq 7 ⟨[], []⟩ =
        .error .BadRequest) :=
  ⟨⟨by decide,
      (create_duplicate_rejected buildEx buildEx calcHealthy buildLiqEx storBD 7
        ⟨[], []⟩).1 (by decide)⟩,
    ⟨by decide,
      (create_duplicate_rejected buildEx buildEx calcHealthy buildLiqEx storLiq 7
        ⟨[], []⟩).2.2 (by decide)⟩⟩

/-- C5: whenever `fill` returns successfully, the auction record for its
(type, subject) key has been deleted from the resulting storage — whatever
the per-type fill routines did — so a second fill of the same key fails with
`BadRequest` until a new auction is created. -/
theorem fill_deletes_auction
    (fUL : PoolStorage → AuctionData → Address → Address →
      Except PoolError (AuctionQuote × PoolStorage))
    (fBD fInt : PoolStorage → AuctionData → Address →
      Except PoolError (AuctionQuote × PoolStorage))
    (s : PoolStorage) (auction_type : Nat) (user filler : Address)
    (quote : AuctionQuote) (s' : PoolStorage)
    (h : fill fUL fBD fInt s auction_type user filler = .ok (quote, s')) :
    has_auction s' auction_type user = false ∧
      ∀ filler2, fill fUL fBD fInt s' auction_type user filler2 =
        .error .BadRequest := by
  rcases hga : s.auctions auction_type user with _ | ad
  · simp only [fill, get_auction, hga] at h
    exact absurd h (by simp)
  · simp only [fill, get_auction, hga] at h
    rcases hr : (match auction_type with
      | 0 => fUL s ad user filler
      | 1 => fBD s ad filler
      | 2 => fInt s ad filler
      | _ => .error .InternalPanic) with e | ⟨q, s2⟩
    · rw [hr] at h; exact absurd h (by simp)
    · rw [hr] at h
      simp only [Except.ok.injEq, Prod.mk.injEq] at h
      have hs' : s' = del_auction s2 auction_type user := h.2.symm
      subst hs'
      constructor
      · simp [has_auction, del_auction]
      · intro filler2
        rw [fill, get_auction]
        simp [del_auction]

theorem fill_deletes_auction_witness :
    has_auction (del_auction storLiq 0 7) 0 7 = false ∧
      fill fULEx fBDEx fBDEx (del_auction storLiq 0 7) 0 7 3 =
        .error .BadRequest := by
  have h := fill_deletes_auction fULEx fBDEx fBDEx storLiq 0 7 3
    ⟨[], [], 50⟩ (del_auction storLiq 0 7) rfl
  exact ⟨h.1, h.2 3⟩

/-- C6: calling the generic `create` entry point with auction type 0
(`UserLiquidation`) always fails with `BadRequest`, writing no auction
record. -/
theorem create_user_liquidation_generic_fails
    (buildBD buildInt : PoolStorage → AuctionData) (s : PoolStorage) :
    create buildBD buildInt s 0 = .error .BadRequest := rfl

theorem loadLoop_zero_config (env : LoadEnv) (action : UserAction)
    (hb : action.b_token_delta = 0) (hd : action.d_token_delta = 0) :
    ∀ (l : List (Nat × Nat)) (acc : Int × Int),
      UserData.loadLoop env 0 action l acc = some acc := by
  intro l
  induction l with
  | nil => intro acc; rfl
  | cons p rest ih =>
    intro acc
    obtain ⟨i, asset⟩ := p
    obtain ⟨cb, lb⟩ := acc
    by_cases hA : asset = action.asset
    · simp [UserData.loadLoop, ReserveUsage.is_active_reserve,
        ReserveUsage.is_collateral, ReserveUsage.is_liability,
        Nat.zero_testBit, hA, hb, hd, ih]
    · simp [UserData.loadLoop, ReserveUsage.is_active_reserve,
        ReserveUsage.is_collateral, ReserveUsage.is_liability,
        Nat.zero_testBit, hA, ih]

/-- C7: for every user whose `ReserveUsage` bitmask is zero and whose
`UserAction` has both deltas zero, `UserData::load` returns
`collateral_base = 0` and `liability_base = 0`, whatever the user's actual
b-token and d-token balances at any reserve are. -/
theorem user_data_load_zero_usage (env : LoadEnv) (action : UserAction)
    (hb : action.b_token_delta = 0) (hd : action.d_token_delta = 0) :
    UserData.load env 0 action = some (0, 0) :=
  loadLoop_zero_config env action hb hd env.res_list.enum (0, 0)

theorem user_data_load_zero_usage_witness :
    actEx.b_token_delta = 0 ∧ actEx.d_token_delta = 0 ∧
      UserData.load envEx 0 actEx = some (0, 0) :=
  ⟨rfl, rfl, user_data_load_zero_usage envEx actEx rfl rfl⟩

/-- C8 fails on the code: in `envEx` the user's b-token balance at reserve 77
is 5 ≠ 0 and its base contribution would be 5, yet with the usage bit for the
reserve clear `UserData::load` returns `(0, 0)` — the non-zero balance is
silently skipped, not included. -/
theorem user_data_load_skips_nonzero_balance :
    envEx.bBalance 77 = 5 ∧ (5 : Int) ≠ 0 ∧
      ReserveUsage.is_collateral 0 0 = false ∧
      fixed_mul_floor (envEx.toEffB 77 (envEx.bBalance 77)) (envEx.price 77)
        SCALAR_7 = some 5 ∧
      UserData.load envEx 0 actEx = some (0, 0) := by
  refine ⟨rfl, by decide, rfl, by decide, by decide⟩

theorem loadLoop_cons_congr (env : LoadEnv) (cfg : Nat) (action : UserAction)
    (j b : Nat) (l1 l2 : List (Nat × Nat))
    (h : ∀ acc, UserData.loadLoop env cfg action l1 acc =
      UserData.loadLoop env cfg action l2 acc) :
    ∀ acc, UserData.loadLoop env cfg action ((j, b) :: l1) acc =
      UserData.loadLoop env cfg action ((j, b) :: l2) acc := by
  intro acc
  obtain ⟨cb, lb⟩ := acc
  simp only [UserData.loadLoop, h]

/-- C8 amended: the valuation loop of `UserData::load` skips every reserve
whose `ReserveUsage` bits are clear and which is not the action's asset —
its balances, non-zero or not, contribute nothing; contributions are only
accumulated for reserves with a set bit or for the action's asset. -/
theorem user_data_load_clear_bit_skipped (env : LoadEnv) (cfg : Nat)
    (action : UserAction) (i a : Nat)
    (hbit : ReserveUsage.is_active_reserve cfg i = false)
    (ha : a ≠ action.asset) :
    ∀ (pre post : List (Nat × Nat)) (acc : Int × Int),
      UserData.loadLoop env cfg action (pre ++ (i, a) :: post) acc =
        UserData.loadLoop env cfg action (pre ++ post) acc := by
  intro pre
  induction pre with
  | nil =>
    intro post acc
    obtain ⟨cb, lb⟩ := acc
    simp [UserData.loadLoop, hbit, ha]
  | cons p pre ih =>
    intro post acc
    obtain ⟨j, b⟩ := p
    exact loadLoop_cons_congr env cfg action j b _ _ (fun acc2 => ih post acc2) acc

theorem poolEmisStepPure_snd_lookup (acc : Nat × (Nat → Option Nat) × Nat)
    (m : ReserveEmissionMetadata) (k : Nat) :
    (poolEmisStepPure acc m).2.1 k =
      if k = emissionKey m then some m.share else acc.2.1 k := by
  by_cases ht : m.res_type = 0 <;>
    simp [poolEmisStepPure, emissionKey, mapSet, ht]

theorem poolEmisStepPure_snd_total (acc : Nat × (Nat → Option Nat) × Nat)
    (m : ReserveEmissionMetadata) :
    (poolEmisStepPure acc m).2.2 = acc.2.2 + m.share := by
  by_cases ht : m.res_type = 0 <;> simp [poolEmisStepPure, ht]

theorem poolEmisStepPure_bit_mono (acc : Nat × (Nat → Option Nat) × Nat)
    (m : ReserveEmissionMetadata) (j : Nat) (h : acc.1.testBit j = true) :
    (poolEmisStepPure acc m).1.testBit j = true := by
  by_cases ht : m.res_type = 0 <;>
    simp [poolEmisStepPure, ReserveUsage.set_liability,
      ReserveUsage.set_supply, ht, Nat.testBit_lor, h]

theorem emissionBitSet_eq_testBit (config : Nat) (m : ReserveEmissionMetadata) :
    emissionBitSet config m = config.testBit (emissionBitIndex m) := by
  by_cases ht : m.res_type = 0 <;>
    simp [emissionBitSet, emissionBitIndex, ReserveUsage.is_liability,
      ReserveUsage.is_supply, ht]

theorem poolEmisStepPure_bit_self (acc : Nat × (Nat → Option Nat) × Nat)
    (m : ReserveEmissionMetadata) :
    (poolEmisStepPure acc m).1.testBit (emissionBitIndex m) = true := by
  by_cases ht : m.res_type = 0 <;>
    simp [poolEmisStepPure, emissionBitIndex, ReserveUsage.set_liability,
      ReserveUsage.set_supply, ht, Nat.testBit_lor, Nat.one_shiftLeft,
      Nat.testBit_two_pow_self]

theorem poolEmisStep_ok_of_no_overflow (acc : Nat × (Nat → Option Nat) × Nat)
    (m : ReserveEmissionMetadata) (h : acc.2.2 + m.share < 2 ^ 64) :
    poolEmisStep acc m = .ok (poolEmisStepPure acc m) := by
  have h2 : acc.2.2 + m.share < 18446744073709551616 := h
  by_cases ht : m.res_type = 0 <;>
    simp [poolEmisStep, poolEmisStepPure, u64_checked_add, h2, ht]

theorem poolEmisLoop_eq_foldl (md : List ReserveEmissionMetadata) :
    ∀ acc, acc.2.2 + (md.map (fun m => m.share)).sum < 2 ^ 64 →
      poolEmisLoop md acc = .ok (List.foldl poolEmisStepPure acc md) := by
  induction md with
  | nil => intro acc _; rfl
  | cons m rest ih =>
    intro acc h
    simp only [List.map_cons, List.sum_cons] at h
    have hstep : acc.2.2 + m.share < 2 ^ 64 := by omega
    have hrest : (poolEmisStepPure acc m).2.2 +
        (rest.map (fun m => m.share)).sum < 2 ^ 64 := by
      rw [poolEmisStepPure_snd_total]; omega
    simp only [poolEmisLoop, poolEmisStep_ok_of_no_overflow acc m hstep,
      List.foldl_cons, ih (poolEmisStepPure acc m) hrest]

theorem foldl_poolEmisStepPure_total (md : List ReserveEmissionMetadata) :
    ∀ acc, (md.foldl poolEmisStepPure acc).2.2 =
      acc.2.2 + (md.map (fun m => m.share)).sum := by
  induction md with
  | nil => intro acc; simp
  | cons m rest ih =>
    intro acc
    simp only [List.foldl_cons, List.map_cons, List.sum_cons, ih,
      poolEmisStepPure_snd_total]
    omega

theorem foldl_poolEmisStepPure_lookup_preserved
    (md : List ReserveEmissionMetadata) :
    ∀ acc k, (acc.2.1 k).isSome = true →
      ((md.foldl poolEmisStepPure acc).2.1 k).isSome = true := by
  induction md with
  | nil => intro acc k h; simpa using h
  | cons m rest ih =>
    intro acc k h
    refine ih _ k ?_
    rw [poolEmisStepPure_snd_lookup]
    split
    · rfl
    · exact h

theorem foldl_poolEmisStepPure_bit_preserved
    (md : List ReserveEmissionMetadata) :
    ∀ acc j, acc.1.testBit j = true →
      ((md.foldl poolEmisStepPure acc).1.testBit j) = true := by
  induction md with
  | nil => intro acc j h; simpa using h
  | cons m rest ih =>
    intro acc j h
    exact ih _ j (poolEmisStepPure_bit_mono acc m j h)

theorem foldl_poolEmisStepPure_member (md : List ReserveEmissionMetadata)
    (m : ReserveEmissionMetadata) (hm : m ∈ md) :
    ∀ acc,
      ((md.foldl poolEmisStepPure acc).2.1 (emissionKey m)).isSome = true ∧
      (md.foldl poolEmisStepPure acc).1.testBit (emissionBitIndex m) = true := by
  induction md with
  | nil => cases hm
  | cons m0 rest ih =>
    intro acc
    rcases List.mem_cons.mp hm with he | hmem
    · subst he
      rw [List.foldl_cons]
      constructor
      · apply foldl_poolEmisStepPure_lookup_preserved
        rw [poolEmisStepPure_snd_lookup]
        simp
      · exact foldl_poolEmisStepPure_bit_preserved rest _ _
          (poolEmisStepPure_bit_self acc m)
    · exact ih hmem (poolEmisStepPure acc m0)

theorem foldl_poolEmisStepPure_lookup_none (md : List ReserveEmissionMetadata) :
    ∀ acc k, (∀ m ∈ md, emissionKey m ≠ k) → acc.2.1 k = none →
      (md.foldl poolEmisStepPure acc).2.1 k = none := by
  induction md with
  | nil => intro acc k _ h; simpa using h
  | cons m rest ih =>
    intro acc k hk h
    refine ih _ k (fun m' hm' => hk m' (List.mem_cons_of_mem m hm')) ?_
    rw [poolEmisStepPure_snd_lookup]
    rw [if_neg (fun he => hk m (List.mem_cons_self m rest) he.symm)]
    exact h

/-- C9 fails on the code: the running `u64` total-share addition traps before
the 100% check.  For the two representable shares `2^63, 2^63` the sum
exceeds `1_0000000`, yet `set_pool_emissions` traps on overflow instead of
returning `BadRequest`. -/
theorem set_pool_emissions_overflow :
    ((mdOvf.map (fun m => m.share)).sum > 10000000 ∧
      mdOvf.all (fun m => m.share < 2 ^ 64) = true) ∧
      set_pool_emissions emisStateEx mdOvf = .error .InternalPanic ∧
      set_pool_emissions emisStateEx mdOvf ≠ .error .BadRequest := by
  have h : set_pool_emissions emisStateEx mdOvf = .error .InternalPanic := rfl
  refine ⟨⟨by decide, by decide⟩, h, ?_⟩
  rw [h]
  intro heq
  exact absurd (Except.error.inj heq) (by decide)

/-- C9 amended: provided the share total fits in `u64` (every individual
share does by its type, and a run that overflows the running total traps with
an arithmetic panic instead), `set_pool_emissions` rejects totals above 100%
(`1_0000000`) with `BadRequest` and writes nothing; totals at most
`1_0000000` succeed, preserve the previous `last_time`, store each element's
share under its matching liability/supply key with the matching config bit
set, and store nothing under any other key. -/
theorem set_pool_emissions_spec (s : EmissionsState)
    (md : List ReserveEmissionMetadata) :
    ((md.map (fun m => m.share)).sum < 2 ^ 64 →
      (md.map (fun m => m.share)).sum > 10000000 →
      set_pool_emissions s md = .error .BadRequest) ∧
    ((md.map (fun m => m.share)).sum ≤ 10000000 →
      ∃ s', set_pool_emissions s md = .ok s' ∧
        s'.pool_emission_config.last_time = s.pool_emission_config.last_time ∧
        (∀ m ∈ md, (s'.pool_emissions (emissionKey m)).isSome = true ∧
          emissionBitSet s'.pool_emission_config.config m = true) ∧
        (∀ k, (∀ m ∈ md, emissionKey m ≠ k) → s'.pool_emissions k = none)) := by
  have htot : (md.foldl poolEmisStepPure (0, fun _ => none, 0)).2.2 =
      (md.map (fun m => m.share)).sum := by
    rw [foldl_poolEmisStepPure_total]
    simp
  constructor
  · intro h64 h
    have hloop := poolEmisLoop_eq_foldl md (0, fun _ => none, 0)
      (by simpa using h64)
    simp only [set_pool_emissions, hloop]
    rw [if_pos (by rw [htot]; omega)]
  · intro h
    have h64 : (md.map (fun m => m.share)).sum < 2 ^ 64 := by omega
    have hloop := poolEmisLoop_eq_foldl md (0, fun _ => none, 0)
      (by simpa using h64)
    simp only [set_pool_emissions, hloop]
    rw [if_neg (by rw [htot]; omega)]
    refine ⟨_, rfl, rfl, fun m hm => ?_, fun k hk => ?_⟩
    · have hmem := foldl_poolEmisStepPure_member md m hm (0, fun _ => none, 0)
      exact ⟨hmem.1, by rw [emissionBitSet_eq_testBit]; exact hmem.2⟩
    · exact foldl_poolEmisStepPure_lookup_none md (0, fun _ => none, 0) k hk rfl

theorem set_pool_emissions_spec_witness :
    ((mdOver.map (fun m => m.share)).sum < 2 ^ 64 ∧
      (mdOver.map (fun m => m.share)).sum > 10000000 ∧
      set_pool_emissions emisStateEx mdOver = .error .BadRequest) ∧
    ((mdEx.map (fun m => m.share)).sum ≤ 10000000 ∧
      (∃ s', set_pool_emissions emisStateEx mdEx = .ok s' ∧
        s'.pool_emission_config.last_time =
          emisStateEx.pool_emission_config.last_time ∧
        (∀ m ∈ mdEx, (s'.pool_emissions (emissionKey m)).isSome = true ∧
          emissionBitSet s'.pool_emission_config.config m = true) ∧
        (∀ k, (∀ m ∈ mdEx, emissionKey m ≠ k) → s'.pool_emissions k = none))) :=
  ⟨⟨by decide, by decide,
      (set_pool_emissions_spec emisStateEx mdOver).1 (by decide) (by decide)⟩,
    ⟨by decide, (set_pool_emissions_spec emisStateEx mdEx).2 (by decide)⟩⟩

theorem cond_step_ok (dist : DistFn) (pe : Nat → Option Nat)
    (next_exp pool_eps : Nat) (b : Bool) (key res_type asset : Nat)
    (s : EmissionsState)
    (hdist : ∀ st a t, ∃ st', dist st a t = .ok st')
    (hpe : b = true →
      ∃ share, pe key = some share ∧ share * pool_eps < 2 ^ 64) :
    ∃ s1, (if b then
        match update_reserve_emission_data dist s asset res_type key with
        | .error e => .error e
        | .ok sx =>
          match pe key with
          | none => Except.error PoolError.InternalPanic
          | some share => update_reserve_emission_config sx key
              next_exp pool_eps share
      else .ok s : Except PoolError EmissionsState) = .ok s1 := by
  cases b with
  | false => exact ⟨s, rfl⟩
  | true =>
    obtain ⟨share, hshare, hmul⟩ := hpe rfl
    have hup : ∃ sx, update_reserve_emission_data dist s asset res_type key =
        .ok sx := by
      unfold update_reserve_emission_data
      split
      · exact hdist s asset res_type
      · exact ⟨_, rfl⟩
    obtain ⟨sx, hsx⟩ := hup
    refine ⟨{ sx with res_emis_config := fun k =>
      if k = key then some ⟨next_exp, share * pool_eps / 10000000⟩
      else sx.res_emis_config k }, ?_⟩
    have hmul2 : share * pool_eps < 18446744073709551616 := hmul
    simp [hsx, hshare, update_reserve_emission_config, u64_checked_mul, hmul2]

theorem update_emissions_loop_ok (dist : DistFn) (cfg : Nat)
    (pe : Nat → Option Nat) (next_exp pool_eps : Nat)
    (hdist : ∀ st a t, ∃ st', dist st a t = .ok st') :
    ∀ (l : List (Nat × Nat)) (s : EmissionsState),
      (∀ p ∈ l,
        (ReserveUsage.is_liability cfg p.1 = true →
          ∃ share, pe (ReserveUsage.liability_key p.1) = some share ∧
            share * pool_eps < 2 ^ 64) ∧
        (ReserveUsage.is_supply cfg p.1 = true →
          ∃ share, pe (ReserveUsage.supply_key p.1) = some share ∧
            share * pool_eps < 2 ^ 64)) →
      ∃ s2, update_emissions_loop dist cfg pe next_exp pool_eps l s = .ok s2 := by
  intro l
  induction l with
  | nil => intro s _; exact ⟨s, rfl⟩
  | cons p rest ih =>
    intro s hcond
    obtain ⟨i, asset⟩ := p
    have hc := hcond (i, asset) (List.mem_cons_self _ _)
    obtain ⟨s1, hs1⟩ := cond_step_ok dist pe next_exp pool_eps
      (ReserveUsage.is_liability cfg i) (ReserveUsage.liability_key i) 0 asset s
      hdist hc.1
    obtain ⟨s2, hs2⟩ := cond_step_ok dist pe next_exp pool_eps
      (ReserveUsage.is_supply cfg i) (ReserveUsage.supply_key i) 1 asset s1
      hdist hc.2
    obtain ⟨s3, hs3⟩ := ih s2 (fun q hq => hcond q (List.mem_cons_of_mem _ hq))
    refine ⟨s3, ?_⟩
    simp only [update_emissions_loop, hs1, hs2, hs3]

/-- C10 fails on the code: `(eps_share * pool_eps) / 1_0000000` is a trapping
`u64` multiply.  With a configured 100% share (`1_0000000`) and
`pool_eps = 2^63`, both representable, `update_emissions` at
`next_exp = 5 > last_time = 0` traps on overflow instead of returning
`Ok(next_exp)`. -/
theorem update_emissions_overflow :
    emisStateOvf.pool_emission_config.last_time < 5 ∧
      update_emissions distOk emisStateOvf 5 (2 ^ 63) = .error .InternalPanic ∧
      ∀ s', update_emissions distOk emisStateOvf 5 (2 ^ 63) ≠ .ok (5, s') := by
  have h : update_emissions distOk emisStateOvf 5 (2 ^ 63) =
      .error .InternalPanic := rfl
  refine ⟨by decide, h, fun s' heq => ?_⟩
  rw [h] at heq
  exact Except.noConfusion heq

/-- C10 amended: `update_emissions(next_exp, pool_eps)` rejects any
`next_exp` at or below the stored pool emission config's `last_time` with
`BadRequest` and changes nothing; for `next_exp` strictly above `last_time` —
given a successful distributor update and, for every configured reserve
token, a share entry whose `share * pool_eps` fits in `u64` (an overflowing
product traps with an arithmetic panic instead) — it returns `Ok(next_exp)`
and stores `last_time = next_exp`, so a second call with the same `next_exp`
fails. -/
theorem update_emissions_spec (dist : DistFn) (s : EmissionsState)
    (next_exp pool_eps : Nat) :
    (next_exp ≤ s.pool_emission_config.last_time →
      update_emissions dist s next_exp pool_eps = .error .BadRequest) ∧
    (s.pool_emission_config.last_time < next_exp →
      (∀ st a t, ∃ st', dist st a t = .ok st') →
      (∀ p ∈ s.res_list.enum,
        (ReserveUsage.is_liability s.pool_emission_config.config p.1 = true →
          ∃ share, s.pool_emissions (ReserveUsage.liability_key p.1) =
            some share ∧ share * pool_eps < 2 ^ 64) ∧
        (ReserveUsage.is_supply s.pool_emission_config.config p.1 = true →
          ∃ share, s.pool_emissions (ReserveUsage.supply_key p.1) =
            some share ∧ share * pool_eps < 2 ^ 64)) →
      ∃ s', update_emissions dist s next_exp pool_eps = .ok (next_exp, s') ∧
        s'.pool_emission_config.last_time = next_exp ∧
        update_emissions dist s' next_exp pool_eps = .error .BadRequest) := by
  constructor
  · intro h
    simp only [update_emissions, if_pos h]
  · intro h hdist hcond
    obtain ⟨s2, hs2⟩ := update_emissions_loop_ok dist
      s.pool_emission_config.config s.pool_emissions next_exp pool_eps hdist
      s.res_list.enum s hcond
    refine ⟨{ s2 with pool_emission_config :=
        ⟨s.pool_emission_config.config, next_exp⟩ }, ?_, rfl, ?_⟩
    · simp only [update_emissions, if_neg (not_le.mpr h), hs2]
    · simp only [update_emissions]
      rw [if_pos (le_refl next_exp)]

theorem update_emissions_spec_witness :
    emisStateEx.pool_emission_config.last_time < 1500604800 ∧
      (∃ s', update_emissions distOk emisStateEx 1500604800 5000000 =
          .ok (1500604800, s') ∧
        s'.pool_emission_config.last_time = 1500604800 ∧
        update_emissions distOk s' 1500604800 5000000 = .error .BadRequest) :=
  ⟨by decide,
    (update_emissions_spec distOk emisStateEx 1500604800 5000000).2 (by decide)
      (fun st a t => ⟨st, rfl⟩) (by simp [emisStateEx])⟩

theorem user_data_load_clear_bit_skipped_witness :
    ReserveUsage.is_active_reserve 0 0 = false ∧ (77 : Nat) ≠ actEx.asset ∧
      UserData.loadLoop envEx 0 actEx ([] ++ (0, 77) :: []) (0, 0) =
        UserData.loadLoop envEx 0 actEx ([] ++ []) (0, 0) :=
  ⟨rfl, by decide,
    user_data_load_clear_bit_skipped envEx 0 actEx 0 77 rfl (by decide) [] [] (0, 0)⟩

end Blend
